import Mathlib

/-!
Verification of the error-logs ingestion and read-through-cache pipeline.

The definitions below are a shallow embedding of the Go sources:
`internal/services/analytics_service.go` (ErrorService and
generateFingerprint), `internal/database` (DB.CreateError, DB.GetErrors,
DB.GetErrorByID, DB.ResolveError, DB.DeleteError, DB.GetStats) and
`internal/redis/redis.go` (queue, recent ring, list/stats caches with
bulk invalidation).  Machine words are Nat reduced mod 2^32 where Go
uses uint32; Go strings are Lean strings with UTF-8 byte semantics;
fallible gateway calls are driven by explicit fault flags and return
an explicit result type.
-/

namespace ErrorLogs

/-! ## SHA-256 (crypto/sha256), as used by generateFingerprint -/

/-- Reduce to a 32-bit word, as Go uint32 arithmetic does. -/
def w32 (n : Nat) : Nat := n % 4294967296

/-- 32-bit right rotation. -/
def rotr (x k : Nat) : Nat := w32 ((x >>> k) ||| (x <<< (32 - k)))

/-- The SHA-256 choice function. -/
def ch (x y z : Nat) : Nat := (x &&& y) ^^^ ((4294967295 - x) &&& z)

/-- The SHA-256 majority function. -/
def maj (x y z : Nat) : Nat := (x &&& y) ^^^ (x &&& z) ^^^ (y &&& z)

/-- Big sigma 0. -/
def bigS0 (x : Nat) : Nat := rotr x 2 ^^^ rotr x 13 ^^^ rotr x 22

/-- Big sigma 1. -/
def bigS1 (x : Nat) : Nat := rotr x 6 ^^^ rotr x 11 ^^^ rotr x 25

/-- Small sigma 0. -/
def smallS0 (x : Nat) : Nat := rotr x 7 ^^^ rotr x 18 ^^^ (x >>> 3)

/-- Small sigma 1. -/
def smallS1 (x : Nat) : Nat := rotr x 17 ^^^ rotr x 19 ^^^ (x >>> 10)

/-- The 64 SHA-256 round constants. -/
def sha256K : List Nat :=
  [1116352408, 1899447441, 3049323471, 3921009573, 961987163,
   1508970993, 2453635748, 2870763221, 3624381080, 310598401,
   607225278, 1426881987, 1925078388, 2162078206, 2614888103,
   3248222580, 3835390401, 4022224774, 264347078, 604807628,
   770255983, 1249150122, 1555081692, 1996064986, 2554220882,
   2821834349, 2952996808, 3210313671, 3336571891, 3584528711,
   113926993, 338241895, 666307205, 773529912, 1294757372,
   1396182291, 1695183700, 1986661051, 2177026350, 2456956037,
   2730485921, 2820302411, 3259730800, 3345764771, 3516065817,
   3600352804, 4094571909, 275423344, 430227734, 506948616,
   659060556, 883997877, 958139571, 1322822218, 1537002063,
   1747873779, 1955562222, 2024104815, 2227730452, 2361852424,
   2428436474, 2756734187, 3204031479, 3329325298]

/-- The eight chaining words of the SHA-256 state. -/
structure Hash8 where
  h0 : Nat
  h1 : Nat
  h2 : Nat
  h3 : Nat
  h4 : Nat
  h5 : Nat
  h6 : Nat
  h7 : Nat
deriving Repr, DecidableEq

/-- The SHA-256 initial state. -/
def sha256H0 : Hash8 :=
  ⟨1779033703, 3144134277, 1013904242, 2773480762,
   1359893119, 2600822924, 528734635, 1541459225⟩

/-- The eight working registers of the compression loop. -/
structure Regs where
  a : Nat
  b : Nat
  c : Nat
  d : Nat
  e : Nat
  f : Nat
  g : Nat
  h : Nat
deriving Repr, DecidableEq

/-- One compression round, fed a pair of round constant and schedule word. -/
def roundStep (r : Regs) (kw : Nat × Nat) : Regs :=
  let t1 := w32 (r.h + bigS1 r.e + ch r.e r.f r.g + kw.1 + kw.2)
  let t2 := w32 (bigS0 r.a + maj r.a r.b r.c)
  ⟨w32 (t1 + t2), r.a, r.b, r.c, w32 (r.d + t1), r.e, r.f, r.g⟩

/-- Big-endian 4-byte groups to 32-bit words. -/
def toWords : List Nat → List Nat
  | b0 :: b1 :: b2 :: b3 :: rest =>
      ((b0 <<< 24) ||| (b1 <<< 16) ||| (b2 <<< 8) ||| b3) :: toWords rest
  | _ => []

/-- Message-schedule extension, run on the reversed word list so the four
taps are at fixed offsets from the head; `n` counts remaining words. -/
def schedAux : Nat → List Nat → List Nat
  | 0, acc => acc
  | n + 1, acc =>
      let g := fun k => acc.getD k 0
      schedAux n (w32 (smallS1 (g 1) + g 6 + smallS0 (g 14) + g 15) :: acc)

/-- Extend 16 block words to the 64 schedule words. -/
def schedule (ws : List Nat) : List Nat := (schedAux 48 ws.reverse).reverse

/-- Compress one 64-byte block into the chaining state. -/
def compress (st : Hash8) (block : List Nat) : Hash8 :=
  let ws := schedule (toWords block)
  let r0 : Regs := ⟨st.h0, st.h1, st.h2, st.h3, st.h4, st.h5, st.h6, st.h7⟩
  let r := (sha256K.zip ws).foldl roundStep r0
  ⟨w32 (st.h0 + r.a), w32 (st.h1 + r.b), w32 (st.h2 + r.c), w32 (st.h3 + r.d),
   w32 (st.h4 + r.e), w32 (st.h5 + r.f), w32 (st.h6 + r.g), w32 (st.h7 + r.h)⟩

/-- Big-endian bytes of a 32-bit word. -/
def wordBytes (x : Nat) : List Nat :=
  [(x >>> 24) % 256, (x >>> 16) % 256, (x >>> 8) % 256, x % 256]

/-- The 32 digest bytes of a final state. -/
def digestBytes (st : Hash8) : List Nat :=
  wordBytes st.h0 ++ wordBytes st.h1 ++ wordBytes st.h2 ++ wordBytes st.h3 ++
  wordBytes st.h4 ++ wordBytes st.h5 ++ wordBytes st.h6 ++ wordBytes st.h7

/-- The 8-byte big-endian bit length that ends the padding. -/
def lenBytes (len : Nat) : List Nat :=
  let b := 8 * len
  [(b >>> 56) % 256, (b >>> 48) % 256, (b >>> 40) % 256, (b >>> 32) % 256,
   (b >>> 24) % 256, (b >>> 16) % 256, (b >>> 8) % 256, b % 256]

/-- SHA-256 padding for a message of `len` bytes. -/
def padBytes (len : Nat) : List Nat :=
  0x80 :: List.replicate ((119 - len % 64) % 64) 0 ++ lenBytes len

/-- Split into 64-byte blocks; the fuel is any bound on the block count. -/
def chunksAux : Nat → List Nat → List (List Nat)
  | 0, _ => []
  | _ + 1, [] => []
  | n + 1, bs => bs.take 64 :: chunksAux n (bs.drop 64)

/-- The SHA-256 digest (32 bytes) of a byte list. -/
def sha256 (msg : List Nat) : List Nat :=
  let padded := msg ++ padBytes msg.length
  digestBytes ((chunksAux padded.length padded).foldl compress sha256H0)

/-- Lowercase hex digit. -/
def hexDigit (n : Nat) : Char :=
  if n < 10 then Char.ofNat (48 + n) else Char.ofNat (87 + n)

/-- Two lowercase hex characters of a byte, as fmt %x prints it. -/
def byteHex (b : Nat) : List Char := [hexDigit (b / 16), hexDigit (b % 16)]

/-- Lowercase hex string of a byte list, as fmt %x prints a byte array. -/
def bytesToHex (bs : List Nat) : String := ⟨(bs.map byteHex).flatten⟩

/-- UTF-8 bytes of one unicode scalar value. -/
def utf8Char (c : Nat) : List Nat :=
  if c < 0x80 then [c]
  else if c < 0x800 then
    [0xc0 ||| (c >>> 6), 0x80 ||| (c &&& 0x3f)]
  else if c < 0x10000 then
    [0xe0 ||| (c >>> 12), 0x80 ||| ((c >>> 6) &&& 0x3f), 0x80 ||| (c &&& 0x3f)]
  else
    [0xf0 ||| (c >>> 18), 0x80 ||| ((c >>> 12) &&& 0x3f),
     0x80 ||| ((c >>> 6) &&& 0x3f), 0x80 ||| (c &&& 0x3f)]

/-- The UTF-8 bytes of a string, which is what converting a Go string to
a byte slice yields. -/
def strBytes (s : String) : List Nat := (s.data.map (fun c => utf8Char c.toNat)).flatten

/-- generateFingerprint from analytics_service.go: concatenate the message
and the stack trace when present, hash with SHA-256, print as lowercase
hex and keep the first 16 characters. -/
def generateFingerprint (message : String) (stackTrace : Option String) : String :=
  let data :=
    match stackTrace with
    | some st => message ++ st
    | none => message
  (bytesToHex (sha256 (strBytes data))).take 16

/-! ## Data model (internal/models/models.go) -/

/-- A JSON-like value: the semantic type behind the open context mapping
(a Go map from string to interface values). -/
inductive JVal where
  | null
  | bool (b : Bool)
  | num (n : Int)
  | str (s : String)
  | arr (xs : List JVal)
  | obj (fs : List (String × JVal))

/-- models.Error.  Identifiers and timestamps are Nat; pointer-typed Go
fields are Option; the nilable context map is an association list inside
Option (none is the nil map, some [] the empty one). -/
structure ErrorEvent where
  id : Nat
  timestamp : Nat
  level : String
  message : String
  stackTrace : Option String
  context : Option (List (String × JVal))
  source : String
  environment : String
  userAgent : Option String
  ipAddress : Option String
  url : Option String
  fingerprint : Option String
  resolved : Bool
  count : Nat
  firstSeen : Nat
  lastSeen : Nat
  createdAt : Nat
  updatedAt : Nat

/-- models.CreateErrorRequest. -/
structure CreateErrorRequest where
  level : String
  message : String
  stackTrace : Option String
  context : Option (List (String × JVal))
  source : String
  environment : Option String
  url : Option String

/-- models.StatsResponse.  The two float64 ratio fields of the Go struct
are represented by their integer numerator (errors24h counts the rows of
the last 24 hours; the resolution rate is derived from resolvedErrors and
totalErrors): float arithmetic itself is outside the embedding. -/
structure StatsResponse where
  totalErrors : Nat
  resolvedErrors : Nat
  errorsToday : Nat
  errorsThisWeek : Nat
  errorsThisMonth : Nat
  errors24h : Nat
  avgResolutionTime : String
deriving Repr, DecidableEq

/-- models.ErrorListResponse. -/
structure ErrorListResponse where
  errors : List ErrorEvent
  total : Nat
  page : Nat
  limit : Nat

/-- The outcome of a service call: a value, a Go error value, or a
runtime panic (Go integer division by zero). -/
inductive SvcResult (α : Type) where
  | ok (a : α)
  | err (msg : String)
  | panicked (msg : String)

/-- Whether a result is a runtime panic. -/
def SvcResult.isPanicked {α : Type} : SvcResult α → Bool
  | .panicked _ => true
  | _ => false

/-- Whether a result is a success. -/
def SvcResult.isOk {α : Type} : SvcResult α → Bool
  | .ok _ => true
  | _ => false

/-! ## Cache Gateway (internal/redis/redis.go)

Redis state: the work queue (LPush at the head, BRPop from the tail),
the bounded recent-items ring (LTrim to 100), the keyed list caches
(each entry keeps the TTL in seconds it was stored with), and the stats
cache.  Faults of individual calls are explicit Bool flags at the call
site. -/

structure Cache where
  queue : List ErrorEvent
  recent : List ErrorEvent
  lists : List (String × (List ErrorEvent × Nat))
  statsCache : Option (StatsResponse × Nat)

/-- QueueError: one pipeline that pushes onto the work queue and the
recent ring and trims the ring to 100 entries. -/
def queueError (e : ErrorEvent) (c : Cache) : Cache :=
  { c with queue := e :: c.queue, recent := (e :: c.recent).take 100 }

/-- BRPop: take the oldest queued item from the tail, if any. -/
def dequeueError (c : Cache) : Option ErrorEvent × Cache :=
  match c.queue.getLast? with
  | none => (none, c)
  | some e => (some e, { c with queue := c.queue.dropLast })

/-- CacheErrorList: Set overwrites the entry under the key and records
the TTL it was called with. -/
def cacheErrorList (key : String) (events : List ErrorEvent) (ttl : Nat) (c : Cache) : Cache :=
  { c with lists := (key, (events, ttl)) :: c.lists.filter (fun kv => !(kv.1 == key)) }

/-- GetCachedErrorList: an error from redis, or the entry under the key
(none is the redis.Nil miss, returned without error). -/
def redisGetList (fail : Bool) (key : String) (c : Cache) :
    Except String (Option (List ErrorEvent)) :=
  if fail then .error "redis: connection refused"
  else .ok ((c.lists.lookup key).map Prod.fst)

/-- GetCachedStats. -/
def redisGetStats (fail : Bool) (c : Cache) : Except String (Option StatsResponse) :=
  if fail then .error "redis: connection refused"
  else .ok (c.statsCache.map Prod.fst)

/-- InvalidateAllCache: first delete every list-cache key; on failure
return early with the stats cache untouched; then delete the stats key.
The Bool of the pair reports overall success. -/
def invalidateAllCache (listDelFail statsDelFail : Bool) (c : Cache) : Cache × Bool :=
  if listDelFail then (c, false)
  else
    let c1 := { c with lists := [] }
    if statsDelFail then (c1, false) else ({ c1 with statsCache := none }, true)

/-! ## Durable Store Gateway (internal/database, DB methods on errors) -/

/-- INSERT INTO errors: appends the row; the primary key makes a
duplicate id an error (none). -/
def dbCreateError (e : ErrorEvent) (rows : List ErrorEvent) : Option (List ErrorEvent) :=
  if rows.any (fun r => r.id == e.id) then none else some (rows ++ [e])

/-- The WHERE clause of DB.GetErrors: an empty level or source string
adds no condition. -/
def matchesFilter (level source : String) (e : ErrorEvent) : Bool :=
  (level == "" || e.level == level) && (source == "" || e.source == source)

/-- Descending insertion by timestamp (ORDER BY timestamp DESC). -/
def insertByTs (e : ErrorEvent) : List ErrorEvent → List ErrorEvent
  | [] => [e]
  | x :: xs => if x.timestamp ≤ e.timestamp then e :: x :: xs else x :: insertByTs e xs

/-- Rows sorted by timestamp descending. -/
def sortByTsDesc (rows : List ErrorEvent) : List ErrorEvent := rows.foldr insertByTs []

/-- DB.GetErrors: the page (LIMIT after OFFSET over the ordered filtered
rows) together with the true COUNT of the filtered rows. -/
def dbGetErrors (limit offset : Nat) (level source : String) (rows : List ErrorEvent) :
    List ErrorEvent × Nat :=
  let filtered := rows.filter (matchesFilter level source)
  (((sortByTsDesc filtered).drop offset).take limit, filtered.length)

/-- DB.GetErrorByID: sql.ErrNoRows becomes the "error not found" error. -/
def dbGetErrorByID (id : Nat) (rows : List ErrorEvent) : Except String ErrorEvent :=
  match rows.find? (fun r => r.id == id) with
  | some e => .ok e
  | none => .error "error not found"

/-- DB.ResolveError: UPDATE errors SET resolved = true, updated_at = NOW()
WHERE id = $1.  Exec reports no error when zero rows match, so the call
succeeds whether or not the id exists. -/
def dbResolveError (id dbNow : Nat) (rows : List ErrorEvent) : List ErrorEvent :=
  rows.map (fun r => if r.id == id then { r with resolved := true, updatedAt := dbNow } else r)

/-- DB.DeleteError: DELETE FROM errors WHERE id = $1; likewise succeeds
on zero matched rows. -/
def dbDeleteError (id : Nat) (rows : List ErrorEvent) : List ErrorEvent :=
  rows.filter (fun r => !(r.id == id))

/-- DB.GetStats: the aggregation queries over the errors table, with the
calendar-day and sliding-window counts taken at server time now (seconds,
86400 to a day). -/
def dbGetStats (now : Nat) (rows : List ErrorEvent) : StatsResponse :=
  { totalErrors := rows.length
    resolvedErrors := (rows.filter (fun r => r.resolved)).length
    errorsToday := (rows.filter (fun r => r.timestamp / 86400 == now / 86400)).length
    errorsThisWeek := (rows.filter (fun r => now ≤ r.timestamp + 604800)).length
    errorsThisMonth := (rows.filter (fun r => now ≤ r.timestamp + 2592000)).length
    errors24h := (rows.filter (fun r => now ≤ r.timestamp + 86400)).length
    avgResolutionTime := "2h 15m" }

/-- The whole mutable external state: the errors table and redis. -/
structure World where
  store : List ErrorEvent
  cache : Cache

/-! ## ErrorService (analytics_service.go) -/

/-- The ErrorEvent literal built by ErrorService.CreateError lines
117-149: fresh id, all five timestamps at the current server time,
resolved false, count 1, the computed fingerprint, the production
default for a missing environment, and the nil context replaced by an
empty map. -/
def buildEvent (req : CreateErrorRequest) (userAgent ipAddress : String)
    (now freshId : Nat) : ErrorEvent :=
  { id := freshId
    timestamp := now
    level := req.level
    message := req.message
    stackTrace := req.stackTrace
    context := some (match req.context with | some m => m | none => [])
    source := req.source
    environment := match req.environment with | some env => env | none => "production"
    userAgent := some userAgent
    ipAddress := some ipAddress
    url := req.url
    fingerprint := some (generateFingerprint req.message req.stackTrace)
    resolved := false
    count := 1
    firstSeen := now
    lastSeen := now
    createdAt := now
    updatedAt := now }

/-- ErrorService.CreateError.  qFail: the queue pipeline fails (atomic,
so nothing is pushed); then the direct insert is tried, dbFail being the
store fault; invalidation faults are logged and ignored on every path. -/
def createError (req : CreateErrorRequest) (userAgent ipAddress : String)
    (now freshId : Nat) (qFail dbFail invF1 invF2 : Bool) (w : World) :
    SvcResult ErrorEvent × World :=
  let e := buildEvent req userAgent ipAddress now freshId
  if qFail then
    match (if dbFail then none else dbCreateError e w.store) with
    | none => (.err "storage error", w)
    | some rows =>
        (.ok e, { store := rows, cache := (invalidateAllCache invF1 invF2 w.cache).1 })
  else
    let c1 := queueError e w.cache
    (.ok e, { store := w.store, cache := (invalidateAllCache invF1 invF2 c1).1 })

/-- The cache key of ErrorService.GetErrors. -/
def listCacheKey (limit offset : Nat) (level source : String) : String :=
  "list_" ++ toString limit ++ "_" ++ toString offset ++ "_" ++ level ++ "_" ++ source

/-- ErrorService.GetErrors.  A cache read error or redis.Nil both fall
through to the store (the hit test is err == nil and a non-nil slice);
on a miss the page and true total come from the store, a non-empty page
is cached for 120 seconds with the write error discarded, and the page
number is the unguarded (offset / limit) + 1 on both paths. -/
def getErrors (limit offset : Nat) (level source : String)
    (cacheReadFail dbFail cacheWriteFail : Bool) (w : World) :
    SvcResult ErrorListResponse × World :=
  let key := listCacheKey limit offset level source
  match redisGetList cacheReadFail key w.cache with
  | .ok (some cached) =>
      if limit == 0 then (.panicked "integer divide by zero", w)
      else (.ok ⟨cached, cached.length + offset, offset / limit + 1, limit⟩, w)
  | _ =>
      if dbFail then (.err "storage error", w)
      else
        let (page, total) := dbGetErrors limit offset level source w.store
        let c :=
          if page.length > 0 && !cacheWriteFail then cacheErrorList key page 120 w.cache
          else w.cache
        if limit == 0 then (.panicked "integer divide by zero", { w with cache := c })
        else (.ok ⟨page, total, offset / limit + 1, limit⟩, { w with cache := c })

/-- ErrorService.GetErrorByID: a direct store read. -/
def getErrorByID (id : Nat) (dbFail : Bool) (w : World) : SvcResult ErrorEvent × World :=
  if dbFail then (.err "storage error", w)
  else
    match dbGetErrorByID id w.store with
    | .ok e => (.ok e, w)
    | .error m => (.err m, w)

/-- ErrorService.ResolveError: store update, then full cache
invalidation whose failure is only logged. -/
def resolveError (id dbNow : Nat) (dbFail invF1 invF2 : Bool) (w : World) :
    SvcResult Unit × World :=
  if dbFail then (.err "storage error", w)
  else
    (.ok (), { store := dbResolveError id dbNow w.store,
               cache := (invalidateAllCache invF1 invF2 w.cache).1 })

/-- ErrorService.DeleteError: store delete, then full cache invalidation
whose failure is only logged. -/
def deleteError (id : Nat) (dbFail invF1 invF2 : Bool) (w : World) :
    SvcResult Unit × World :=
  if dbFail then (.err "storage error", w)
  else
    (.ok (), { store := dbDeleteError id w.store,
               cache := (invalidateAllCache invF1 invF2 w.cache).1 })

/-- ErrorService.GetStats: cache-first; a cache read error degrades to
the store; a store error is fatal; the cache write error is only
logged (redis stores stats with a 300 second TTL). -/
def getStats (now : Nat) (cacheReadFail dbFail cacheWriteFail : Bool) (w : World) :
    SvcResult StatsResponse × World :=
  match redisGetStats cacheReadFail w.cache with
  | .ok (some st) => (.ok st, w)
  | _ =>
      if dbFail then (.err "storage error", w)
      else
        let st := dbGetStats now w.store
        let c := if cacheWriteFail then w.cache else { w.cache with statsCache := some (st, 300) }
        (.ok st, { w with cache := c })

/-- ErrorService.processError: persist the dequeued item, and on success
invalidate all caches (failure logged); the Bool reports persistence
success. -/
def processError (e : ErrorEvent) (dbFail invF1 invF2 : Bool) (w : World) : Bool × World :=
  match (if dbFail then none else dbCreateError e w.store) with
  | none => (false, w)
  | some rows =>
      (true, { store := rows, cache := (invalidateAllCache invF1 invF2 w.cache).1 })

/-- One iteration of ErrorService.StartQueueProcessor: a dequeue error
is logged and the loop sleeps and continues; an empty queue continues;
a dequeued item is processed, and a processing failure is logged without
requeueing. -/
def queueProcessorStep (deqFail dbFail invF1 invF2 : Bool) (w : World) : World :=
  if deqFail then w
  else
    match dequeueError w.cache with
    | (none, c) => { w with cache := c }
    | (some e, c) => (processError e dbFail invF1 invF2 { w with cache := c }).2

/-! ## The submit pipeline (transport-layer validation) -/

/-- The four levels of the fixed enum. -/
def validLevels : List String := ["error", "warning", "info", "debug"]

/-- Modelled from the spec: the HTTP handler for POST /api/errors is not
among the files under src (only its callee ErrorService.CreateError is).
Spec 4.2: message and source are required non-empty, rejected before any
side effect; level is validated against the fixed enum or defaulted to
error. -/
def validateCreateError (req : CreateErrorRequest) : Except String CreateErrorRequest :=
  if req.message == "" then .error "Message is required"
  else if req.source == "" then .error "Source is required"
  else .ok { req with level := if validLevels.contains req.level then req.level else "error" }

/-- The submit operation: spec-modelled validation in front of the
source-faithful ErrorService.CreateError. -/
def submit (req : CreateErrorRequest) (userAgent ipAddress : String)
    (now freshId : Nat) (qFail dbFail invF1 invF2 : Bool) (w : World) :
    SvcResult ErrorEvent × World :=
  match validateCreateError req with
  | .error m => (.err m, w)
  | .ok req2 => createError req2 userAgent ipAddress now freshId qFail dbFail invF1 invF2 w

/-! ## The operations of the system as one step relation -/

/-- Every operation the system can run against the world, with its fault
flags. -/
inductive SysOp where
  | opSubmit (req : CreateErrorRequest) (ua ip : String) (now freshId : Nat)
      (qF dF i1 i2 : Bool)
  | opList (limit offset : Nat) (level source : String) (cF dF wF : Bool)
  | opGet (id : Nat) (dF : Bool)
  | opResolve (id dbNow : Nat) (dF i1 i2 : Bool)
  | opDelete (id : Nat) (dF i1 i2 : Bool)
  | opStats (now : Nat) (cF dF wF : Bool)
  | opWorker (deqF dF i1 i2 : Bool)

/-- The state transition of one operation. -/
def step : SysOp → World → World
  | .opSubmit req ua ip now fid qF dF i1 i2, w => (submit req ua ip now fid qF dF i1 i2 w).2
  | .opList l o lv s cF dF wF, w => (getErrors l o lv s cF dF wF w).2
  | .opGet id dF, w => (getErrorByID id dF w).2
  | .opResolve id n dF i1 i2, w => (resolveError id n dF i1 i2 w).2
  | .opDelete id dF i1 i2, w => (deleteError id dF i1 i2 w).2
  | .opStats n cF dF wF, w => (getStats n cF dF wF w).2
  | .opWorker q dF i1 i2, w => queueProcessorStep q dF i1 i2 w

/-! ## Spec-side statement of the fingerprint, and concrete sample data -/

/-- The fingerprint as the spec words it (4.1): the first 16 hexadecimal
characters of the SHA-256 hash of the message concatenated with the
stack trace, the empty string standing in when it is absent.  Kept as a
separate definition so the source-faithful generateFingerprint can be
compared against it. -/
def fingerprintSpec (m : String) (s : Option String) : String :=
  (bytesToHex (sha256 (strBytes (m ++ s.getD "")))).take 16

/-- A concrete well-formed submit request, used by the witnesses. -/
def sampleReq : CreateErrorRequest :=
  { level := "error", message := "database timeout", stackTrace := none,
    context := none, source := "backend", environment := none, url := none }

/-- The empty redis state. -/
def emptyCache : Cache := { queue := [], recent := [], lists := [], statsCache := none }

/-- The empty world: no rows, empty redis. -/
def emptyWorld : World := { store := [], cache := emptyCache }

/-- A concrete event, used by the witnesses. -/
def sampleEvent : ErrorEvent := buildEvent sampleReq "agent" "1.2.3.4" 0 42

/-- A world whose queue holds exactly the sample event. -/
def sampleQueueWorld : World :=
  { store := [],
    cache := { queue := [sampleEvent], recent := [], lists := [], statsCache := none } }

/-- A world holding one already-resolved record under id 42. -/
def resolvedWorld : World :=
  { store := [{ sampleEvent with resolved := true }], cache := emptyCache }

/-! ## Theorems -/

theorem length_digestBytes (st : Hash8) : (digestBytes st).length = 32 := by
  simp [digestBytes, wordBytes]

theorem length_sha256 (msg : List Nat) : (sha256 msg).length = 32 := by
  simp [sha256, length_digestBytes]

theorem length_bytesToHex (bs : List Nat) : (bytesToHex bs).length = 2 * bs.length := by
  show ((bs.map byteHex).flatten).length = 2 * bs.length
  induction bs with
  | nil => rfl
  | cons b tl ih =>
      simp only [List.map_cons, List.flatten_cons, List.length_append, ih, byteHex,
        List.length_cons, List.length_nil]
      omega

theorem length_generateFingerprint (m : String) (s : Option String) :
    (generateFingerprint m s).length = 16 := by
  have h : ∀ d : String, ((bytesToHex (sha256 (strBytes d))).take 16).length = 16 := by
    intro d
    rw [String.take_eq]
    show ((bytesToHex (sha256 (strBytes d))).1.take 16).length = 16
    rw [List.length_take]
    have h2 : (bytesToHex (sha256 (strBytes d))).1.length = 64 := by
      have h3 := length_bytesToHex (sha256 (strBytes d))
      rw [length_sha256] at h3
      exact h3
    rw [h2]
    decide
  cases s with
  | none => exact h m
  | some st => exact h (m ++ st)

set_option maxRecDepth 100000 in
/-- The SHA-256 embedding reproduces the FIPS 180-4 one-block test
vector, pinning down constants, schedule, padding and hex printing. -/
theorem sha256_test_vector :
    bytesToHex (sha256 (strBytes "abc")) =
      "ba7816bf8f01cfea414140de5dae2223b00361a396177a9cb410ff61f20015ad" := by
  decide

/-- C2: for every message and optional stack trace, the fingerprint is
the first 16 hexadecimal characters of the SHA-256 hash of the message
concatenated with the stack trace (empty string when absent), its length
is 16, and it is deterministic: equal inputs give equal output. -/
theorem fingerprint_spec_deterministic_len16 (m m2 : String) (s s2 : Option String)
    (hm : m = m2) (hs : s = s2) :
    generateFingerprint m s = fingerprintSpec m s ∧
    (generateFingerprint m s).length = 16 ∧
    generateFingerprint m s = generateFingerprint m2 s2 := by
  refine ⟨?_, length_generateFingerprint m s, by rw [hm, hs]⟩
  cases s with
  | none => simp [generateFingerprint, fingerprintSpec]
  | some st => rfl

/-- C2 witness at a concrete input. -/
theorem fingerprint_spec_deterministic_len16_witness :
    generateFingerprint "boom" (some "trace") = fingerprintSpec "boom" (some "trace") ∧
    (generateFingerprint "boom" (some "trace")).length = 16 ∧
    generateFingerprint "boom" (some "trace") = generateFingerprint "boom" (some "trace") :=
  fingerprint_spec_deterministic_len16 "boom" "boom" (some "trace") (some "trace") rfl rfl

theorem level_in_enum (lvl : String) :
    validLevels.contains (if validLevels.contains lvl then lvl else "error") = true := by
  cases h : validLevels.contains lvl with
  | false => rfl
  | true => simpa using h

theorem createError_ok_inv (req : CreateErrorRequest) (ua ip : String) (now fid : Nat)
    (qF dF i1 i2 : Bool) (w : World) (e : ErrorEvent)
    (hok : (createError req ua ip now fid qF dF i1 i2 w).1 = .ok e) :
    e = buildEvent req ua ip now fid := by
  cases qF with
  | false =>
      simp only [createError, Bool.false_eq_true, if_false] at hok
      exact (SvcResult.ok.inj hok).symm
  | true =>
      rcases h : (if dF then none else dbCreateError (buildEvent req ua ip now fid) w.store)
        with _ | rows
      · simp only [createError, if_true, h] at hok
        exact absurd hok (by simp)
      · simp only [createError, if_true, h] at hok
        exact (SvcResult.ok.inj hok).symm

/-- C1: on an enqueue failure, CreateError synchronously persists the
built event through the store gateway, then invalidates every read
cache, then returns the event; the queue and the recent ring are left
untouched.  If the fallback insert also fails, a storage error is
returned and the world is completely unchanged: the event is neither
queued nor stored. -/
theorem createError_fallback_path (req : CreateErrorRequest) (ua ip : String)
    (now fid : Nat) (w : World)
    (hfresh : w.store.any (fun r => r.id == fid) = false) :
    createError req ua ip now fid true false false false w =
      (.ok (buildEvent req ua ip now fid),
       { store := w.store ++ [buildEvent req ua ip now fid],
         cache := { w.cache with lists := [], statsCache := none } }) ∧
    (∀ i1 i2 : Bool, createError req ua ip now fid true true i1 i2 w =
       (.err "storage error", w)) ∧
    (∀ w2 : World, dbCreateError (buildEvent req ua ip now fid) w2.store = none →
       ∀ i1 i2 : Bool, createError req ua ip now fid true false i1 i2 w2 =
         (.err "storage error", w2)) := by
  refine ⟨?_, ?_, ?_⟩
  · have hins : dbCreateError (buildEvent req ua ip now fid) w.store =
        some (w.store ++ [buildEvent req ua ip now fid]) := by
      simp only [dbCreateError, buildEvent, hfresh, Bool.false_eq_true, if_false]
    simp [createError, hins, invalidateAllCache]
  · intro i1 i2
    simp [createError]
  · intro w2 hnone i1 i2
    simp [createError, hnone]

/-- C1 witness: the fallback path at a concrete request over the empty
world. -/
theorem createError_fallback_path_witness :
    createError sampleReq "agent" "1.2.3.4" 0 42 true false false false emptyWorld =
      (.ok (buildEvent sampleReq "agent" "1.2.3.4" 0 42),
       { store := emptyWorld.store ++ [buildEvent sampleReq "agent" "1.2.3.4" 0 42],
         cache := { emptyWorld.cache with lists := [], statsCache := none } }) :=
  (createError_fallback_path sampleReq "agent" "1.2.3.4" 0 42 emptyWorld rfl).1

/-- C3: every successful CreateError returns the freshly built event:
the generated id, resolved false, count 1, a non-null context that is
the empty map when the request carried none, the computed fingerprint,
all five timestamps equal to the current server time, the environment
of the request or the production default, and two calls with distinct
generated ids return events with distinct ids. -/
theorem createError_success_fields (req : CreateErrorRequest) (ua ip : String)
    (now fid : Nat) (qF dF i1 i2 : Bool) (w : World) (e : ErrorEvent)
    (hok : (createError req ua ip now fid qF dF i1 i2 w).1 = .ok e)
    (req2 : CreateErrorRequest) (ua2 ip2 : String) (now2 fid2 : Nat)
    (qF2 dF2 i12 i22 : Bool) (w2 : World) (e2 : ErrorEvent)
    (hok2 : (createError req2 ua2 ip2 now2 fid2 qF2 dF2 i12 i22 w2).1 = .ok e2)
    (hfid : fid ≠ fid2) :
    e.id = fid ∧ e.resolved = false ∧ e.count = 1 ∧
    e.context = some (req.context.getD []) ∧
    (req.context = none → e.context = some []) ∧
    e.fingerprint = some (generateFingerprint req.message req.stackTrace) ∧
    e.timestamp = now ∧ e.firstSeen = now ∧ e.lastSeen = now ∧
    e.createdAt = now ∧ e.updatedAt = now ∧
    e.environment = req.environment.getD "production" ∧
    e.id ≠ e2.id := by
  have h1 := createError_ok_inv req ua ip now fid qF dF i1 i2 w e hok
  have h2 := createError_ok_inv req2 ua2 ip2 now2 fid2 qF2 dF2 i12 i22 w2 e2 hok2
  subst h1
  subst h2
  refine ⟨rfl, rfl, rfl, ?_, ?_, rfl, rfl, rfl, rfl, rfl, rfl, ?_, ?_⟩
  · rcases hc : req.context with _ | m <;> simp [buildEvent, hc]
  · intro h
    simp [buildEvent, h]
  · rcases he : req.environment with _ | env <;> simp [buildEvent, he]
  · exact hfid

/-- C3 witness: a concrete successful creation over the empty world,
paired with a second creation under a distinct generated id. -/
theorem createError_success_fields_witness :
    sampleEvent.id = 42 ∧ sampleEvent.resolved = false ∧ sampleEvent.count = 1 ∧
    sampleEvent.context = some (sampleReq.context.getD []) ∧
    (sampleReq.context = none → sampleEvent.context = some []) ∧
    sampleEvent.fingerprint =
      some (generateFingerprint sampleReq.message sampleReq.stackTrace) ∧
    sampleEvent.timestamp = 0 ∧ sampleEvent.firstSeen = 0 ∧ sampleEvent.lastSeen = 0 ∧
    sampleEvent.createdAt = 0 ∧ sampleEvent.updatedAt = 0 ∧
    sampleEvent.environment = sampleReq.environment.getD "production" ∧
    sampleEvent.id ≠ (buildEvent sampleReq "agent" "1.2.3.4" 0 43).id :=
  createError_success_fields sampleReq "agent" "1.2.3.4" 0 42 false false false false
    emptyWorld sampleEvent rfl sampleReq "agent" "1.2.3.4" 0 43 false false false false
    emptyWorld (buildEvent sampleReq "agent" "1.2.3.4" 0 43) rfl (by decide)

/-- C5: the submit pipeline rejects an empty message or source with a
validation failure and no state change; on acceptance the stored level
is always inside the fixed enum (defaulted to error when the request
level is not), and the environment defaults to production when
absent. -/
theorem submit_validates_before_side_effects (req : CreateErrorRequest) (ua ip : String)
    (now fid : Nat) (qF dF i1 i2 : Bool) (w : World) :
    (req.message = "" ∨ req.source = "" →
      ∃ m, submit req ua ip now fid qF dF i1 i2 w = (.err m, w)) ∧
    (∀ e, (submit req ua ip now fid qF dF i1 i2 w).1 = .ok e →
      validLevels.contains e.level = true ∧
      e.level = (if validLevels.contains req.level then req.level else "error") ∧
      e.environment = req.environment.getD "production" ∧
      e.message = req.message ∧ e.source = req.source) := by
  constructor
  · intro h
    by_cases hm : req.message = ""
    · exact ⟨"Message is required", by simp [submit, validateCreateError, hm]⟩
    · have hsrc : req.source = "" := by tauto
      exact ⟨"Source is required",
        by simp [submit, validateCreateError, beq_iff_eq, hm, hsrc]⟩
  · intro e hok
    by_cases hm : req.message = ""
    · simp [submit, validateCreateError, hm] at hok
    · by_cases hsrc : req.source = ""
      · simp [submit, validateCreateError, beq_iff_eq, hm, hsrc] at hok
      · have hval : validateCreateError req =
            .ok { req with
                  level := if validLevels.contains req.level then req.level else "error" } := by
          simp [validateCreateError, beq_iff_eq, hm, hsrc]
        have he := createError_ok_inv
          { req with level := if validLevels.contains req.level then req.level else "error" }
          ua ip now fid qF dF i1 i2 w e (by simpa [submit, hval] using hok)
        subst he
        refine ⟨?_, rfl, ?_, rfl, rfl⟩
        · exact level_in_enum req.level
        · rcases he2 : req.environment with _ | env <;> simp [buildEvent, he2]

/-- C5 witness: the accepted sample request produces an in-enum level
and the production default environment. -/
theorem submit_validates_before_side_effects_witness :
    validLevels.contains sampleEvent.level = true ∧
    sampleEvent.level =
      (if validLevels.contains sampleReq.level then sampleReq.level else "error") ∧
    sampleEvent.environment = sampleReq.environment.getD "production" ∧
    sampleEvent.message = sampleReq.message ∧ sampleEvent.source = sampleReq.source :=
  (submit_validates_before_side_effects sampleReq "agent" "1.2.3.4" 0 42
    false false false false emptyWorld).2 sampleEvent rfl

/-- C4: with a positive limit, a cache hit returns the cached page with
the total approximated as the cached length plus the offset; a miss
fetches the page and the true filtered count from the store and
populates the cache under the list key with the 120 second TTL exactly
when the returned page is non-empty. -/
theorem getErrors_cache_paths (limit offset : Nat) (level source : String) (w : World)
    (hl : 1 ≤ limit) :
    (∀ cached ttl (dF wF : Bool),
       w.cache.lists.lookup (listCacheKey limit offset level source) = some (cached, ttl) →
       getErrors limit offset level source false dF wF w =
         (.ok ⟨cached, cached.length + offset, offset / limit + 1, limit⟩, w)) ∧
    (∀ cF : Bool,
       w.cache.lists.lookup (listCacheKey limit offset level source) = none →
       getErrors limit offset level source cF false false w =
         (.ok ⟨(dbGetErrors limit offset level source w.store).1,
               (dbGetErrors limit offset level source w.store).2,
               offset / limit + 1, limit⟩,
          { w with cache :=
              if (dbGetErrors limit offset level source w.store).1.length > 0 then
                (cacheErrorList (listCacheKey limit offset level source)
                  (dbGetErrors limit offset level source w.store).1 120 w.cache)
              else w.cache }) ∧
       ((getErrors limit offset level source cF false false w).2.cache.lists.lookup
           (listCacheKey limit offset level source) =
           some ((dbGetErrors limit offset level source w.store).1, 120) ↔
         (dbGetErrors limit offset level source w.store).1 ≠ [])) := by
  have hlim : limit ≠ 0 := by omega
  have hne : (limit == 0) = false := by simp [hlim]
  constructor
  · intro cached ttl dF wF hhit
    simp [getErrors, redisGetList, hhit, hne]
  · intro cF hmiss
    have heq : getErrors limit offset level source cF false false w =
        (.ok ⟨(dbGetErrors limit offset level source w.store).1,
              (dbGetErrors limit offset level source w.store).2,
              offset / limit + 1, limit⟩,
         { w with cache :=
             if (dbGetErrors limit offset level source w.store).1.length > 0 then
               (cacheErrorList (listCacheKey limit offset level source)
                 (dbGetErrors limit offset level source w.store).1 120 w.cache)
             else w.cache }) := by
      cases cF with
      | false => simp [getErrors, redisGetList, hmiss, hne]
      | true => simp [getErrors, redisGetList, hne]
    refine ⟨heq, ?_⟩
    rw [heq]
    rcases hpage : (dbGetErrors limit offset level source w.store).1 with _ | ⟨x, xs⟩
    · simp [hmiss]
    · simp [cacheErrorList, List.lookup]

/-- C4 witness: the miss path over the empty world at limit 1. -/
theorem getErrors_cache_paths_witness :
    getErrors 1 0 "" "" false false false emptyWorld =
      (.ok ⟨(dbGetErrors 1 0 "" "" emptyWorld.store).1,
            (dbGetErrors 1 0 "" "" emptyWorld.store).2, 0 / 1 + 1, 1⟩,
       { emptyWorld with cache :=
           if (dbGetErrors 1 0 "" "" emptyWorld.store).1.length > 0 then
             (cacheErrorList (listCacheKey 1 0 "" "")
               (dbGetErrors 1 0 "" "" emptyWorld.store).1 120 emptyWorld.cache)
           else emptyWorld.cache }) :=
  (((getErrors_cache_paths 1 0 "" "" emptyWorld (by decide)).2 false rfl)).1

/-- C10: the page computation (offset / limit) + 1 is reached unguarded
on the cache-hit path and on the store path, so GetErrors never panics
when the limit is at least 1, and panics with a division by zero at
limit 0 whenever the division is reached: on any path when the store is
reachable, and on the cache-hit path regardless of the store. -/
theorem getErrors_division_guard (limit offset : Nat) (level source : String)
    (cF dF wF : Bool) (w : World) :
    (1 ≤ limit → (getErrors limit offset level source cF dF wF w).1.isPanicked = false) ∧
    (limit = 0 → dF = false →
       (getErrors limit offset level source cF dF wF w).1 =
         .panicked "integer divide by zero") ∧
    (limit = 0 →
       ∀ cached, redisGetList cF (listCacheKey limit offset level source) w.cache =
           .ok (some cached) →
       (getErrors limit offset level source cF dF wF w).1 =
         .panicked "integer divide by zero") := by
  refine ⟨?_, ?_, ?_⟩
  · intro hl
    have hlim : limit ≠ 0 := by omega
    have hne : (limit == 0) = false := by simp [hlim]
    rcases h : redisGetList cF (listCacheKey limit offset level source) w.cache with msg | o
    · cases dF <;> simp [getErrors, h, hne, SvcResult.isPanicked]
    · rcases o with _ | cached
      · cases dF <;> simp [getErrors, h, hne, SvcResult.isPanicked]
      · simp [getErrors, h, hne, SvcResult.isPanicked]
  · intro h0 hdF
    subst h0
    subst hdF
    rcases h : redisGetList cF (listCacheKey 0 offset level source) w.cache with msg | o
    · simp [getErrors, h]
    · rcases o with _ | cached <;> simp [getErrors, h]
  · intro h0 cached hhit
    subst h0
    simp [getErrors, hhit]

/-- C10 witness: no panic at limit 1 over the empty world, and the
division-by-zero panic at limit 0 over the empty world. -/
theorem getErrors_division_guard_witness :
    (getErrors 1 0 "" "" false false false emptyWorld).1.isPanicked = false ∧
    (getErrors 0 0 "" "" false false false emptyWorld).1 =
      .panicked "integer divide by zero" :=
  ⟨(getErrors_division_guard 1 0 "" "" false false false emptyWorld).1 (by decide),
   (getErrors_division_guard 0 0 "" "" false false false emptyWorld).2.1 rfl rfl⟩

/-- C6: at the failing input, an id absent from the store (here any id
over the empty store), ResolveError and DeleteError succeed silently
because the UPDATE and DELETE report no error on zero affected rows,
while GetErrorByID alone reports the not-found error. -/
theorem resolve_delete_absent_id_succeed :
    (resolveError 7 1 false false false emptyWorld).1 = .ok () ∧
    (deleteError 7 false false false emptyWorld).1 = .ok () ∧
    (getErrorByID 7 false emptyWorld).1 = .err "error not found" :=
  ⟨rfl, rfl, rfl⟩

/-- C9: a Cache Gateway failure never fails an otherwise-successful
operation.  A cache read error on the list or stats path degrades to the
store and the call succeeds; a store error on the degraded path is fatal
to the request; invalidation faults after create, resolve and delete are
only logged and the operation still returns success. -/
theorem cache_failure_never_fatal (limit offset : Nat) (level source : String)
    (now id dbNow fid : Nat) (req : CreateErrorRequest) (ua ip : String)
    (wF i1 i2 : Bool) (w : World) :
    (1 ≤ limit → (getErrors limit offset level source true false wF w).1.isOk = true) ∧
    ((getErrors limit offset level source true true wF w).1 = .err "storage error") ∧
    ((getStats now true false wF w).1 = .ok (dbGetStats now w.store)) ∧
    ((getStats now true true wF w).1 = .err "storage error") ∧
    ((resolveError id dbNow false i1 i2 w).1 = .ok ()) ∧
    ((deleteError id false i1 i2 w).1 = .ok ()) ∧
    ((createError req ua ip now fid false false i1 i2 w).1 =
       .ok (buildEvent req ua ip now fid)) := by
  refine ⟨?_, ?_, ?_, ?_, rfl, rfl, rfl⟩
  · intro hl
    have hlim : limit ≠ 0 := by omega
    have hne : (limit == 0) = false := by simp [hlim]
    simp [getErrors, redisGetList, hne, SvcResult.isOk]
  · simp [getErrors, redisGetList]
  · cases wF <;> simp [getStats, redisGetStats]
  · simp [getStats, redisGetStats]

/-- C9 witness: a cache read fault over the empty world still yields a
successful list call. -/
theorem cache_failure_never_fatal_witness :
    (getErrors 1 0 "" "" true false false emptyWorld).1.isOk = true :=
  (cache_failure_never_fatal 1 0 "" "" 0 0 0 0 sampleReq "agent" "1.2.3.4"
    false false false emptyWorld).1 (by decide)

/-- C8: once the worker dequeues the oldest item, a persistence failure
leaves the store and every cache untouched and the item is not
re-enqueued (at-most-once); a persistence success appends the row and
invalidates the list and stats caches; in every case the queue has
exactly lost its dequeued tail and the loop keeps running. -/
theorem queueProcessorStep_at_most_once (q : List ErrorEvent) (e : ErrorEvent) (w : World)
    (hq : w.cache.queue = q ++ [e]) :
    (∀ i1 i2 : Bool, queueProcessorStep false true i1 i2 w =
       { store := w.store, cache := { w.cache with queue := q } }) ∧
    (dbCreateError e w.store = none →
       ∀ i1 i2 : Bool, queueProcessorStep false false i1 i2 w =
         { store := w.store, cache := { w.cache with queue := q } }) ∧
    (∀ rows, dbCreateError e w.store = some rows →
       queueProcessorStep false false false false w =
         { store := rows,
           cache := { queue := q, recent := w.cache.recent, lists := [],
                      statsCache := none } }) := by
  have hdq : dequeueError w.cache = (some e, { w.cache with queue := q }) := by
    simp [dequeueError, hq, List.getLast?_concat, List.dropLast_concat]
  refine ⟨?_, ?_, ?_⟩
  · intro i1 i2
    simp [queueProcessorStep, hdq, processError]
  · intro hins i1 i2
    simp [queueProcessorStep, hdq, processError, hins]
  · intro rows hins
    simp [queueProcessorStep, hdq, processError, hins, invalidateAllCache]

/-- C8 witness: the success case over a world whose queue holds exactly
the sample event. -/
theorem queueProcessorStep_at_most_once_witness :
    queueProcessorStep false false false false sampleQueueWorld =
      { store := [] ++ [sampleEvent],
        cache := { queue := [], recent := sampleQueueWorld.cache.recent, lists := [],
                   statsCache := none } } :=
  (queueProcessorStep_at_most_once [] sampleEvent sampleQueueWorld rfl).2.2
    ([] ++ [sampleEvent]) rfl

theorem dbCreateError_mem (e : ErrorEvent) (rows rows2 : List ErrorEvent)
    (hins : dbCreateError e rows = some rows2) :
    rows.any (fun r => r.id == e.id) = false ∧ rows2 = rows ++ [e] := by
  by_cases h : rows.any (fun r => r.id == e.id)
  · simp [dbCreateError, h] at hins
  · refine ⟨by simpa using h, ?_⟩
    simp [dbCreateError, h] at hins
    exact hins.symm

theorem any_id_true_of_mem (rows : List ErrorEvent) (r : ErrorEvent) (hr : r ∈ rows)
    (tid : Nat) (hid : r.id = tid) : rows.any (fun x => x.id == tid) = true :=
  List.any_eq_true.mpr ⟨r, hr, by simp [hid]⟩

theorem resolved_after_insert (e : ErrorEvent) (rows rows2 : List ErrorEvent) (tid : Nat)
    (hins : dbCreateError e rows = some rows2)
    (hex : ∃ r ∈ rows, r.id = tid)
    (hall : ∀ r ∈ rows, r.id = tid → r.resolved = true) :
    ∀ r2 ∈ rows2, r2.id = tid → r2.resolved = true := by
  obtain ⟨hfalse, hrows⟩ := dbCreateError_mem e rows rows2 hins
  subst hrows
  intro r2 hmem hid
  rcases List.mem_append.mp hmem with h | h
  · exact hall r2 h hid
  · rw [List.mem_singleton] at h
    subst h
    exfalso
    rcases hex with ⟨r, hr, hrid⟩
    have htrue := any_id_true_of_mem rows r hr tid hrid
    rw [← hid] at htrue
    simp [hfalse] at htrue

theorem dbResolveError_keeps (id dbNow : Nat) (rows : List ErrorEvent) (tid : Nat)
    (hall : ∀ r ∈ rows, r.id = tid → r.resolved = true) :
    ∀ r2 ∈ dbResolveError id dbNow rows, r2.id = tid → r2.resolved = true := by
  intro r2 hmem hid
  rcases List.mem_map.mp hmem with ⟨r, hr, heq⟩
  subst heq
  by_cases h : r.id == id
  · simp [h]
  · simp [h] at hid ⊢
    exact hall r hr hid

theorem getErrors_store_eq (limit offset : Nat) (level source : String)
    (cF dF wF : Bool) (w : World) :
    (getErrors limit offset level source cF dF wF w).2.store = w.store := by
  unfold getErrors
  rcases h : redisGetList cF (listCacheKey limit offset level source) w.cache with msg | o
  · cases dF <;> simp [h] <;> split_ifs <;> rfl
  · rcases o with _ | cached
    · cases dF <;> simp [h] <;> split_ifs <;> rfl
    · simp [h]
      split_ifs <;> rfl

theorem getErrorByID_store_eq (id : Nat) (dF : Bool) (w : World) :
    (getErrorByID id dF w).2.store = w.store := by
  unfold getErrorByID
  split
  · rfl
  · split <;> rfl

theorem getStats_store_eq (now : Nat) (cF dF wF : Bool) (w : World) :
    (getStats now cF dF wF w).2.store = w.store := by
  unfold getStats
  split
  · rfl
  · split_ifs <;> rfl

/-- C7: resolving is idempotent at the store (resolving twice at the
same server time equals resolving once), resolving an already-resolved
record succeeds and leaves it resolved, and no operation whatsoever of
the system ever flips an existing resolved record back to unresolved. -/
theorem resolve_idempotent_monotone :
    (∀ (id dbNow : Nat) (rows : List ErrorEvent),
       dbResolveError id dbNow (dbResolveError id dbNow rows) =
         dbResolveError id dbNow rows) ∧
    (∀ (id dbNow : Nat) (i1 i2 : Bool) (w : World),
       (∀ r ∈ w.store, r.id = id → r.resolved = true) →
       (resolveError id dbNow false i1 i2 w).1 = .ok () ∧
       (∀ r2 ∈ (resolveError id dbNow false i1 i2 w).2.store,
          r2.id = id → r2.resolved = true)) ∧
    (∀ (op : SysOp) (w : World) (tid : Nat),
       (∃ r ∈ w.store, r.id = tid) →
       (∀ r ∈ w.store, r.id = tid → r.resolved = true) →
       ∀ r2 ∈ (step op w).store, r2.id = tid → r2.resolved = true) := by
  refine ⟨?_, ?_, ?_⟩
  · intro id dbNow rows
    unfold dbResolveError
    rw [List.map_map]
    apply List.map_congr_left
    intro r _
    by_cases h : r.id = id
    · simp [Function.comp, h]
    · simp [Function.comp, h]
  · intro id dbNow i1 i2 w hall
    exact ⟨rfl, dbResolveError_keeps id dbNow w.store id hall⟩
  · intro op w tid hex hall r2 hmem hid
    cases op with
    | opSubmit req ua ip now fid qF dF i1 i2 =>
        rcases hv : validateCreateError req with m | req2
        · simp [step, submit, hv] at hmem
          exact hall r2 hmem hid
        · cases qF with
          | false =>
              simp [step, submit, hv, createError] at hmem
              exact hall r2 hmem hid
          | true =>
              cases dF with
              | true =>
                  simp [step, submit, hv, createError] at hmem
                  exact hall r2 hmem hid
              | false =>
                  rcases hins : dbCreateError (buildEvent req2 ua ip now fid) w.store
                    with _ | rows
                  · simp [step, submit, hv, createError, hins] at hmem
                    exact hall r2 hmem hid
                  · simp [step, submit, hv, createError, hins] at hmem
                    exact resolved_after_insert (buildEvent req2 ua ip now fid) w.store rows
                      tid hins hex hall r2 hmem hid
    | opList l o lv s cF dF wF =>
        rw [show (step (.opList l o lv s cF dF wF) w) =
          (getErrors l o lv s cF dF wF w).2 from rfl, getErrors_store_eq] at hmem
        exact hall r2 hmem hid
    | opGet id dF =>
        rw [show (step (.opGet id dF) w) = (getErrorByID id dF w).2 from rfl,
          getErrorByID_store_eq] at hmem
        exact hall r2 hmem hid
    | opResolve id n dF i1 i2 =>
        cases dF with
        | true =>
            simp [step, resolveError] at hmem
            exact hall r2 hmem hid
        | false =>
            simp [step, resolveError] at hmem
            exact dbResolveError_keeps id n w.store tid hall r2 hmem hid
    | opDelete id dF i1 i2 =>
        cases dF with
        | true =>
            simp [step, deleteError] at hmem
            exact hall r2 hmem hid
        | false =>
            simp [step, deleteError, dbDeleteError] at hmem
            exact hall r2 hmem.1 hid
    | opStats n cF dF wF =>
        rw [show (step (.opStats n cF dF wF) w) = (getStats n cF dF wF w).2 from rfl,
          getStats_store_eq] at hmem
        exact hall r2 hmem hid
    | opWorker deqF dF i1 i2 =>
        cases deqF with
        | true =>
            exact hall r2 hmem hid
        | false =>
            rcases hd : dequeueError w.cache with ⟨oe, c⟩
            rcases oe with _ | e
            · simp [step, queueProcessorStep, hd] at hmem
              exact hall r2 hmem hid
            · cases dF with
              | true =>
                  simp [step, queueProcessorStep, hd, processError] at hmem
                  exact hall r2 hmem hid
              | false =>
                  rcases hins : dbCreateError e w.store with _ | rows
                  · simp [step, queueProcessorStep, hd, processError, hins] at hmem
                    exact hall r2 hmem hid
                  · simp [step, queueProcessorStep, hd, processError, hins] at hmem
                    exact resolved_after_insert e w.store rows tid hins hex hall r2 hmem hid

/-- C7 witness: resolving the already-resolved record of id 42 succeeds. -/
theorem resolve_idempotent_monotone_witness :
    (resolveError 42 5 false false false resolvedWorld).1 = .ok () :=
  (resolve_idempotent_monotone.2.1 42 5 false false resolvedWorld
    (by
      intro r hr hid
      simp only [resolvedWorld, List.mem_singleton] at hr
      subst hr
      rfl)).1

end ErrorLogs
